import Mathlib

/-!
Verification of the BiasClear scan orchestrator (`scan.py`).

The script's `main` coroutine reads configuration from the environment,
expands a glob pattern, and then processes each matched file in order:
read the file leniently, skip blank content, call the external analyzer
`scan_local`, convert any per-file exception into a failed record, and
accumulate results, flagged records and a running score total.  At the end
it emits step outputs, a markdown job summary, and exits non-zero when
`fail_on_bias` is set and some flagged file scored below the threshold.

The embedding below models the per-file loop body (`processFile`), the
whole loop (`scanFiles`), the summary and output emission plus the exit
decision (`mainRun` as an event trace), the per-file console notices
(`fileNotices`), and the JSON report serialization at the level of JSON
values (`encodeReport` / `decodeReport`).  Python exceptions are modelled
by `Except`, the external analyzer by a function argument, file reading by
`ReadOutcome`, integers by `Int`/`Nat`, and the float average by `ℚ` with
round-half-to-even at one decimal (`round1`), matching Python's `round`.
-/

namespace BiasClear

/-- One analyzer flag, as rebuilt by the list comprehension in `scan.py`
(lines 72–75): `{"name": ..., "severity": ...}`. -/
structure Flag where
  name : String
  severity : String
deriving Repr, DecidableEq

/-- The dictionary returned by `scan_local`.  The orchestrator reads the
three keys with `.get` defaults (`truth_score` → 100, `flags` → `[]`,
`bias_detected` → `False`), so each field is optional here. -/
structure Verdict where
  truth_score : Option Int
  flags : Option (List Flag)
  bias_detected : Option Bool
deriving Repr, DecidableEq

/-- A per-file result record appended to `results`: either the scanned
dictionary of lines 67–76 or the failed dictionary of lines 98–102
(which carries `"skipped": True`). -/
inductive FileResult where
  | scanned (file : String) (truth_score : Int) (bias_detected : Bool)
      (flag_count : Nat) (flags : List Flag)
  | failed (file : String) (error : String)
deriving Repr, DecidableEq

instance : Inhabited FileResult := ⟨.failed "" ""⟩

/-- `r.get("skipped")` is truthy exactly on the failed records. -/
def FileResult.isSkipped : FileResult → Bool
  | .scanned _ _ _ _ _ => false
  | .failed _ _ => true

/-- `r["file"]`: both record shapes carry the file path. -/
def FileResult.file : FileResult → String
  | .scanned f _ _ _ _ => f
  | .failed f _ => f

/-- `r["truth_score"]` as a partial lookup: present on scanned records,
absent on failed ones. -/
def FileResult.truthScore? : FileResult → Option Int
  | .scanned _ s _ _ _ => some s
  | .failed _ _ => none

/-- `r.get("truth_score", d)`: the lookup with a default, as used when
filtering `below` (line 126). -/
def FileResult.getTruthScoreD : FileResult → Int → Int
  | .scanned _ s _ _ _, _ => s
  | .failed _ _, d => d

/-- `r.get("flags", [])`: present (already truncated to 5) on scanned
records, defaulted to `[]` on failed ones. -/
def FileResult.getFlags : FileResult → List Flag
  | .scanned _ _ _ _ fs => fs
  | .failed _ _ => []

/-- Run configuration after environment parsing (lines 22–25): threshold,
domain and the fail-on-bias switch.  The glob pattern itself is consumed
by `glob.glob`, which we model by passing the matched file list directly. -/
structure ScanConfig where
  threshold : Int
  domain : String
  fail_on_bias : Bool
deriving Repr, DecidableEq

/-- What opening and reading one file yields: either an exception message
or the decoded text (lenient decoding never raises, line 52). -/
inductive ReadOutcome where
  | err (msg : String)
  | ok (text : String)
deriving Repr, DecidableEq

/-- The external `scan_local` boundary: text and domain in, a verdict out,
or a raised exception modelled as `Except.error`. -/
abbrev AnalyzeFn := String → String → Except String Verdict

/-- The loop accumulator of `main`: `results`, `flagged`, `total_score`
(lines 46–48). -/
structure ScanState where
  results : List FileResult
  flagged : List FileResult
  total_score : Int
deriving Repr, DecidableEq

/-- `not text.strip()`: `strip` removes leading and trailing whitespace,
and the result is falsy exactly when the text is empty or consists of
whitespace only, i.e. every character is whitespace. -/
def isBlank (s : String) : Bool := s.data.all Char.isWhitespace

/-- The body of the `for filepath in files` loop (lines 50–102): a read
failure or an analyzer failure appends a failed record; blank content is
skipped with no record; otherwise the scanned record is appended, the
score is added to the running total, and the record is also appended to
`flagged` when `bias_detected or score < threshold`. -/
def processFile (cfg : ScanConfig) (analyze : AnalyzeFn)
    (st : ScanState) (input : String × ReadOutcome) : ScanState :=
  match input.2 with
  | .err e =>
      { st with results := st.results ++ [.failed input.1 e] }
  | .ok text =>
      if isBlank text then st
      else
        match analyze text cfg.domain with
        | .error e =>
            { st with results := st.results ++ [.failed input.1 e] }
        | .ok v =>
            let score := v.truth_score.getD 100
            let flags := v.flags.getD []
            let b := v.bias_detected.getD false
            let fr : FileResult :=
              .scanned input.1 score b flags.length (flags.take 5)
            if b || decide (score < cfg.threshold) then
              { results := st.results ++ [fr],
                flagged := st.flagged ++ [fr],
                total_score := st.total_score + score }
            else
              { results := st.results ++ [fr],
                flagged := st.flagged,
                total_score := st.total_score + score }

/-- The whole scan loop, folded over the matched files in discovery
order, starting from the empty accumulator. -/
def scanFiles (cfg : ScanConfig) (analyze : AnalyzeFn)
    (files : List (String × ReadOutcome)) : ScanState :=
  files.foldl (processFile cfg analyze)
    { results := [], flagged := [], total_score := 0 }

/-- The `FileResult` one file contributes, if any: `none` exactly for
blank files, a failed record on read or analyzer errors, the scanned
record otherwise. -/
def fileOutcome (cfg : ScanConfig) (analyze : AnalyzeFn)
    (input : String × ReadOutcome) : Option FileResult :=
  match input.2 with
  | .err e => some (.failed input.1 e)
  | .ok text =>
      if isBlank text then none
      else
        match analyze text cfg.domain with
        | .error e => some (.failed input.1 e)
        | .ok v =>
            let score := v.truth_score.getD 100
            let flags := v.flags.getD []
            some (.scanned input.1 score (v.bias_detected.getD false)
              flags.length (flags.take 5))

/-- The flagging condition of line 80, `bias_detected or score < threshold`,
read off a result record; failed records are never flagged. -/
def isFlagged (threshold : Int) : FileResult → Bool
  | .scanned _ s b _ _ => b || decide (s < threshold)
  | .failed _ _ => false

/-- A file input that certainly produces a record: a read error, or
readable non-blank text. -/
def producesResult (input : String × ReadOutcome) : Bool :=
  match input.2 with
  | .err _ => true
  | .ok t => !isBlank t

example :
    (scanFiles ⟨70, "general", true⟩
      (fun t _ => if t == "boom" then .error "kaput"
        else .ok ⟨some 80, some [], some false⟩)
      [("a.md", .ok "fine"), ("b.md", .ok "boom"), ("c.md", .ok " ")]).results
    = [.scanned "a.md" 80 false 0 [], .failed "b.md" "kaput"] := by decide

example : isBlank " \n\t " = true := by decide

/-- Round-half-to-even on rationals: Python's `round` with zero digits.
Between two integers, the even neighbour is chosen on exact halves. -/
def roundHalfEven (q : ℚ) : ℤ :=
  let f := Int.fdiv q.num (q.den : ℤ)
  let r := q - (f : ℚ)
  if r < 1/2 then f
  else if (1:ℚ)/2 < r then f + 1
  else if f % 2 = 0 then f else f + 1

/-- `round(x, 1)`: round to one decimal place, exactly on rationals. -/
def round1 (q : ℚ) : ℚ := (roundHalfEven (q * 10) : ℚ) / 10

/-- Lines 105–106: `scanned` is `results` without the skipped (failed)
records, and `avg_score = round(total_score / max(len(scanned), 1), 1)`
when `scanned` is non-empty, else the integer `100`. -/
def avg_score (st : ScanState) : ℚ :=
  let scanned := st.results.filter fun r => !r.isSkipped
  if scanned.isEmpty then 100
  else round1 ((st.total_score : ℚ) / ((max scanned.length 1 : ℕ) : ℚ))

/-- The three status glyphs of lines 80–91: red (flagged), yellow
(warn), green (clean). -/
inductive Tier where
  | flaggedTier
  | warnTier
  | cleanTier
deriving Repr, DecidableEq

/-- The status classification for the per-file progress line: red when
`bias_detected or score < threshold`, else yellow when `score < 90`,
else green. -/
def statusTier (threshold : Int) (bias_detected : Bool) (score : Int) : Tier :=
  if bias_detected || decide (score < threshold) then .flaggedTier
  else if decide (score < 90) then .warnTier
  else .cleanTier

/-- Tier as claimed by the spec: by score alone, ignoring the detection
bit.  Kept only to compare against `statusTier`. -/
def specTier (threshold : Int) (score : Int) : Tier :=
  if decide (score < threshold) then .flaggedTier
  else if decide (score < 90) then .warnTier
  else .cleanTier

/-- `", ".join(f.get("name", "") for f in flags[:3])` (lines 84 and
175–177). -/
def topFlagNames (flags : List Flag) : String :=
  String.intercalate ", " ((flags.take 3).map Flag.name)

/-- The per-file console side effects: the skip line (line 56), the
warning annotation plus status line for a processed file (lines 80–94),
or the failure line (line 97). -/
inductive Notice where
  | skippedEmpty (file : String)
  | warnAnnot (file : String) (score : Int) (flag_count : Nat)
      (flag_names : String)
  | statusLine (tier : Tier) (file : String) (score : Int) (flag_count : Nat)
  | scanFailed (file : String) (error : String)
deriving Repr, DecidableEq

/-- The notices one file emits, in order, read off the loop body: blank
files log a skip, failures log a warning line, scanned files emit the
annotation (when flagged) followed by the tier-classified status line. -/
def fileNotices (cfg : ScanConfig) (analyze : AnalyzeFn)
    (input : String × ReadOutcome) : List Notice :=
  match input.2 with
  | .err e => [.scanFailed input.1 e]
  | .ok text =>
      if isBlank text then [.skippedEmpty input.1]
      else
        match analyze text cfg.domain with
        | .error e => [.scanFailed input.1 e]
        | .ok v =>
            let score := v.truth_score.getD 100
            let flags := v.flags.getD []
            let b := v.bias_detected.getD false
            if b || decide (score < cfg.threshold) then
              [.warnAnnot input.1 score flags.length (topFlagNames flags),
               .statusLine .flaggedTier input.1 score flags.length]
            else if decide (score < 90) then
              [.statusLine .warnTier input.1 score flags.length]
            else
              [.statusLine .cleanTier input.1 score flags.length]

/-- The markdown job summary of `_build_summary` (lines 151–189), kept
structurally: the metric table values and, per flagged file, the row
`(file, truth_score lookup, joined top-3 flag names)`.  The score cell
reads `f["truth_score"]`, a lookup that only succeeds on scanned
records, hence an `Option`. -/
structure Summary where
  filesScanned : Nat
  filesFlagged : Nat
  avgScore : ℚ
  threshold : Int
  domain : String
  flaggedRows : List (String × Option Int × String)
deriving Repr, DecidableEq

/-- `_build_summary(scanned, flagged, avg_score, threshold, domain)`. -/
def buildSummary (scanned flagged : List FileResult) (avg : ℚ)
    (threshold : Int) (domain : String) : Summary :=
  { filesScanned := scanned.length,
    filesFlagged := flagged.length,
    avgScore := avg,
    threshold := threshold,
    domain := domain,
    flaggedRows := flagged.map fun f =>
      (f.file, f.truthScore?, topFlagNames f.getFlags) }

/-- A value written to an output channel: the counts are stringified
naturals, the average a number, the report the serialized result list. -/
inductive OutputValue where
  | nat (n : Nat)
  | rat (q : ℚ)
  | report (rs : List FileResult)
deriving Repr, DecidableEq

/-- Observable ordered effects of the tail of `main`: `_set_output`
calls, the `_write_summary` call, and process termination. -/
inductive Event where
  | setOutput (name : String) (value : OutputValue)
  | writeSummary (s : Summary)
  | exitProcess (code : Nat)
deriving Repr, DecidableEq

/-- The trace and exit code of one run. -/
structure RunOutcome where
  events : List Event
  exitCode : Nat
deriving Repr, DecidableEq

/-- The reporting tail of `main` for a non-empty file list: the four
`_set_output` calls of lines 115–118 followed by the `_write_summary`
call of lines 121–122, in program order. -/
def mainEvents (cfg : ScanConfig) (analyze : AnalyzeFn)
    (files : List (String × ReadOutcome)) : List Event :=
  [ .setOutput "total_files" (.nat
      ((scanFiles cfg analyze files).results.filter
        fun r => !r.isSkipped).length),
    .setOutput "flagged_files" (.nat (scanFiles cfg analyze files).flagged.length),
    .setOutput "avg_score" (.rat (avg_score (scanFiles cfg analyze files))),
    .setOutput "report" (.report (scanFiles cfg analyze files).results),
    .writeSummary (buildSummary
      ((scanFiles cfg analyze files).results.filter fun r => !r.isSkipped)
      (scanFiles cfg analyze files).flagged
      (avg_score (scanFiles cfg analyze files))
      cfg.threshold cfg.domain) ]

/-- Lines 125–127: `flagged and fail_on_bias` and the `below` filter
(`f.get("truth_score", 100) < threshold`) being non-empty. -/
def failCondition (cfg : ScanConfig) (st : ScanState) : Bool :=
  !st.flagged.isEmpty && cfg.fail_on_bias &&
    !((st.flagged.filter fun f =>
      decide (f.getTruthScoreD 100 < cfg.threshold)).isEmpty)

/-- `main` after configuration and glob expansion, as an event trace.
No matches (lines 30–36): four trivial outputs and a normal return.
Otherwise: scan all files, emit the outputs and summary, then exit 1
when the fail condition of lines 125–129 holds, else finish normally. -/
def mainRun (cfg : ScanConfig) (analyze : AnalyzeFn)
    (files : List (String × ReadOutcome)) : RunOutcome :=
  if files.isEmpty then
    { events := [
        .setOutput "total_files" (.nat 0),
        .setOutput "flagged_files" (.nat 0),
        .setOutput "avg_score" (.rat 100),
        .setOutput "report" (.report []),
        .exitProcess 0],
      exitCode := 0 }
  else if failCondition cfg (scanFiles cfg analyze files) then
    { events := mainEvents cfg analyze files ++ [.exitProcess 1], exitCode := 1 }
  else
    { events := mainEvents cfg analyze files ++ [.exitProcess 0], exitCode := 0 }

/-- JSON values, the shape `json.dumps` receives on line 118. -/
inductive JsonVal where
  | str (s : String)
  | int (n : Int)
  | bool (b : Bool)
  | arr (xs : List JsonVal)
  | obj (fields : List (String × JsonVal))
deriving Repr

/-- A flag dictionary as serialized inside a scanned record. -/
def encodeFlag (fl : Flag) : JsonVal :=
  .obj [("name", .str fl.name), ("severity", .str fl.severity)]

/-- One result record as serialized: the scanned dictionary of lines
67–76 or the failed dictionary of lines 98–102. -/
def encodeFileResult : FileResult → JsonVal
  | .scanned file s b fc fls =>
      .obj [("file", .str file), ("truth_score", .int s),
        ("bias_detected", .bool b), ("flag_count", .int (fc : Int)),
        ("flags", .arr (fls.map encodeFlag))]
  | .failed file e =>
      .obj [("file", .str file), ("error", .str e), ("skipped", .bool true)]

/-- The serialized report: the JSON array written as the `report`
output. -/
def encodeReport (rs : List FileResult) : JsonVal :=
  .arr (rs.map encodeFileResult)

/-- First field with the given key, as a JSON object lookup. -/
def getField (fields : List (String × JsonVal)) (k : String) : Option JsonVal :=
  (fields.find? fun p => p.1 == k).map fun p => p.2

/-- Parse one flag dictionary back. -/
def decodeFlag : JsonVal → Option Flag
  | .obj fields =>
      match getField fields "name", getField fields "severity" with
      | some (.str n), some (.str s) => some ⟨n, s⟩
      | _, _ => none
  | _ => none

/-- Parse a list of flag dictionaries back. -/
def decodeFlags : List JsonVal → Option (List Flag)
  | [] => some []
  | j :: js =>
      match decodeFlag j, decodeFlags js with
      | some fl, some fls => some (fl :: fls)
      | _, _ => none

/-- Parse one result record back, distinguishing the failed shape by its
`error` field. -/
def decodeFileResult : JsonVal → Option FileResult
  | .obj fields =>
      match getField fields "file" with
      | some (.str f) =>
          match getField fields "error" with
          | some (.str e) => some (.failed f e)
          | _ =>
              match getField fields "truth_score", getField fields "bias_detected",
                  getField fields "flag_count", getField fields "flags" with
              | some (.int s), some (.bool b), some (.int fc), some (.arr fls) =>
                  match decodeFlags fls with
                  | some flgs => some (.scanned f s b fc.toNat flgs)
                  | none => none
              | _, _, _, _ => none
      | _ => none
  | _ => none

/-- Parse the whole serialized report back. -/
def decodeResults : List JsonVal → Option (List FileResult)
  | [] => some []
  | j :: js =>
      match decodeFileResult j, decodeResults js with
      | some r, some rs => some (r :: rs)
      | _, _ => none

/-- Parse the report array. -/
def decodeReport : JsonVal → Option (List FileResult)
  | .arr xs => decodeResults xs
  | _ => none

/-! ## Structural lemmas about the scan loop -/

lemma processFile_eq (cfg : ScanConfig) (analyze : AnalyzeFn)
    (st : ScanState) (p : String × ReadOutcome) :
    processFile cfg analyze st p =
      { results := st.results ++ (fileOutcome cfg analyze p).toList,
        flagged := st.flagged ++
          ((fileOutcome cfg analyze p).toList.filter (isFlagged cfg.threshold)),
        total_score := st.total_score +
          ((fileOutcome cfg analyze p).toList.filterMap
            FileResult.truthScore?).sum } := by
  obtain ⟨path, r⟩ := p
  cases r with
  | err e =>
      simp [processFile, fileOutcome, isFlagged, FileResult.truthScore?]
  | ok text =>
      by_cases hb : isBlank text
      · simp [processFile, fileOutcome, hb]
      · cases ha : analyze text cfg.domain with
        | error e =>
            simp [processFile, fileOutcome, hb, ha, isFlagged,
              FileResult.truthScore?]
        | ok v =>
            by_cases hc : (v.bias_detected.getD false
                || decide (v.truth_score.getD 100 < cfg.threshold)) = true
            · simp [processFile, fileOutcome, hb, ha, hc, isFlagged,
                FileResult.truthScore?]
            · simp [processFile, fileOutcome, hb, ha, hc, isFlagged,
                FileResult.truthScore?]

lemma foldl_processFile (cfg : ScanConfig) (analyze : AnalyzeFn)
    (files : List (String × ReadOutcome)) (st : ScanState) :
    files.foldl (processFile cfg analyze) st =
      { results := st.results ++ files.filterMap (fileOutcome cfg analyze),
        flagged := st.flagged ++
          ((files.filterMap (fileOutcome cfg analyze)).filter
            (isFlagged cfg.threshold)),
        total_score := st.total_score +
          ((files.filterMap (fileOutcome cfg analyze)).filterMap
            FileResult.truthScore?).sum } := by
  induction files generalizing st with
  | nil => simp
  | cons p ps ih =>
      rw [List.foldl_cons, ih, processFile_eq]
      cases h : fileOutcome cfg analyze p with
      | none => simp [List.filterMap_cons, h]
      | some r =>
          by_cases hr : isFlagged cfg.threshold r = true <;>
            cases hs : r.truthScore? <;>
              simp [List.filterMap_cons, List.filter_cons, h, hr, hs,
                List.append_assoc, add_assoc]

lemma scanFiles_results (cfg : ScanConfig) (analyze : AnalyzeFn)
    (files : List (String × ReadOutcome)) :
    (scanFiles cfg analyze files).results =
      files.filterMap (fileOutcome cfg analyze) := by
  simp [scanFiles, foldl_processFile]

lemma scanFiles_flagged (cfg : ScanConfig) (analyze : AnalyzeFn)
    (files : List (String × ReadOutcome)) :
    (scanFiles cfg analyze files).flagged =
      (files.filterMap (fileOutcome cfg analyze)).filter
        (isFlagged cfg.threshold) := by
  simp [scanFiles, foldl_processFile]

lemma scanFiles_total (cfg : ScanConfig) (analyze : AnalyzeFn)
    (files : List (String × ReadOutcome)) :
    (scanFiles cfg analyze files).total_score =
      ((scanFiles cfg analyze files).results.filterMap
        FileResult.truthScore?).sum := by
  simp [scanFiles, foldl_processFile]

lemma scanFiles_flagged_filter (cfg : ScanConfig) (analyze : AnalyzeFn)
    (files : List (String × ReadOutcome)) :
    (scanFiles cfg analyze files).flagged =
      (scanFiles cfg analyze files).results.filter (isFlagged cfg.threshold) := by
  rw [scanFiles_results, scanFiles_flagged]

lemma filterMap_all_some {α β : Type} (f : α → Option β) :
    ∀ l : List α, (∀ a ∈ l, (f a).isSome = true) →
      (l.filterMap f).length = l.length ∧
      ∀ i : Nat, ∀ hi : i < l.length,
        (l.filterMap f).get? i = f (l.get ⟨i, hi⟩)
  | [], _ => by simp
  | a :: l, h => by
      obtain ⟨b, hb⟩ := Option.isSome_iff_exists.mp (h a (List.mem_cons_self a l))
      have tail := filterMap_all_some f l fun x hx => h x (List.mem_cons_of_mem a hx)
      have hcons : (a :: l).filterMap f = b :: l.filterMap f := by
        simp [List.filterMap_cons, hb]
      refine ⟨by simp [hcons, tail.1], ?_⟩
      intro i hi
      match i with
      | 0 => simp [hcons, hb]
      | i + 1 =>
          have hi' : i < l.length := by simpa using hi
          simpa [hcons] using tail.2 i hi'

lemma isSkipped_scanned (f : String) (s : Int) (b : Bool) (fc : Nat)
    (fl : List Flag) : (FileResult.scanned f s b fc fl).isSkipped = false := rfl

lemma isSkipped_failed (f e : String) :
    (FileResult.failed f e).isSkipped = true := rfl

lemma truthScore_of_scanned (f : String) (s : Int) (b : Bool) (fc : Nat)
    (fl : List Flag) :
    (FileResult.scanned f s b fc fl).truthScore? = some s := rfl

lemma truthScore_of_failed (f e : String) :
    (FileResult.failed f e).truthScore? = none := rfl

lemma isFlagged_failed (threshold : Int) (f e : String) :
    isFlagged threshold (FileResult.failed f e) = false := rfl

lemma scanned_length_eq_scores (rs : List FileResult) :
    (rs.filter fun r => !r.isSkipped).length =
      (rs.filterMap FileResult.truthScore?).length := by
  induction rs with
  | nil => rfl
  | cons r rs ih =>
      cases r <;>
        simp [isSkipped_scanned, isSkipped_failed, truthScore_of_scanned,
          truthScore_of_failed, List.filter_cons, List.filterMap_cons, ih]

lemma flagged_length_le_scanned (threshold : Int) (rs : List FileResult) :
    (rs.filter (isFlagged threshold)).length ≤
      (rs.filter fun r => !r.isSkipped).length := by
  induction rs with
  | nil => simp
  | cons r rs ih =>
      cases r with
      | scanned f s b fc fl =>
          by_cases hr : isFlagged threshold (.scanned f s b fc fl) = true <;>
            simp [List.filter_cons, hr, isSkipped_scanned] <;> omega
      | failed f e =>
          simpa [List.filter_cons, isFlagged_failed, isSkipped_failed] using ih

lemma isFlagged_scanned_shape {threshold : Int} {r : FileResult}
    (h : isFlagged threshold r = true) :
    ∃ s, r.truthScore? = some s ∧ r.getTruthScoreD 100 = s ∧
      r.isSkipped = false := by
  cases r with
  | scanned f sc b fc fl => exact ⟨sc, rfl, rfl, rfl⟩
  | failed f e => simp [isFlagged] at h

/-! ## Round-trip lemmas for the serialized report -/

lemma decodeFlag_encodeFlag (fl : Flag) : decodeFlag (encodeFlag fl) = some fl := rfl

lemma decodeFlags_map (fls : List Flag) :
    decodeFlags (fls.map encodeFlag) = some fls := by
  induction fls with
  | nil => rfl
  | cons fl fls ih => simp [decodeFlags, decodeFlag_encodeFlag, ih]

lemma decodeFileResult_encode (r : FileResult) :
    decodeFileResult (encodeFileResult r) = some r := by
  cases r with
  | failed f e => rfl
  | scanned f s b fc fls =>
      have h : decodeFileResult (encodeFileResult (.scanned f s b fc fls)) =
          match decodeFlags (fls.map encodeFlag) with
          | some flgs => some (.scanned f s b (Int.toNat (Int.ofNat fc)) flgs)
          | none => none := rfl
      rw [h, decodeFlags_map]
      simp

lemma decodeReport_encodeReport (rs : List FileResult) :
    decodeReport (encodeReport rs) = some rs := by
  have h : ∀ l : List FileResult,
      decodeResults (l.map encodeFileResult) = some l := by
    intro l
    induction l with
    | nil => rfl
    | cons r l ih => simp [decodeResults, decodeFileResult_encode, ih]
  simpa [decodeReport, encodeReport] using h rs

lemma isEmpty_iff_len {α : Type} (l : List α) :
    l.isEmpty = true ↔ l.length = 0 := by
  cases l <;> simp

lemma fileOutcome_err (cfg : ScanConfig) (analyze : AnalyzeFn)
    (p : String × ReadOutcome) (e : String) (h : p.2 = ReadOutcome.err e) :
    fileOutcome cfg analyze p = some (FileResult.failed p.1 e) := by
  obtain ⟨path, r⟩ := p
  simp only at h
  subst h
  rfl

lemma fileOutcome_analyze_err (cfg : ScanConfig) (analyze : AnalyzeFn)
    (p : String × ReadOutcome) (t e : String)
    (ht : p.2 = ReadOutcome.ok t) (hb : isBlank t = false)
    (ha : analyze t cfg.domain = Except.error e) :
    fileOutcome cfg analyze p = some (FileResult.failed p.1 e) := by
  obtain ⟨path, r⟩ := p
  simp only at ht
  subst ht
  simp [fileOutcome, hb, ha]

lemma producesResult_ok (p : String × ReadOutcome) (t : String)
    (ht : p.2 = ReadOutcome.ok t) (h : producesResult p = true) :
    isBlank t = false := by
  obtain ⟨path, r⟩ := p
  simp only at ht
  subst ht
  simpa [producesResult] using h

lemma failCondition_iff (cfg : ScanConfig) (st : ScanState) :
    failCondition cfg st = true ↔
      (cfg.fail_on_bias = true ∧
        ∃ f ∈ st.flagged, f.getTruthScoreD 100 < cfg.threshold) := by
  constructor
  · intro h
    unfold failCondition at h
    simp only [Bool.and_eq_true] at h
    obtain ⟨⟨h1, h3⟩, h2⟩ := h
    refine ⟨h3, ?_⟩
    have h4 : (st.flagged.filter fun f =>
        decide (f.getTruthScoreD 100 < cfg.threshold)) ≠ [] := by
      intro hn
      rw [hn] at h2
      simp at h2
    obtain ⟨f, hf⟩ := List.exists_mem_of_ne_nil _ h4
    obtain ⟨hmem, hlt⟩ := List.mem_filter.mp hf
    exact ⟨f, hmem, of_decide_eq_true hlt⟩
  · rintro ⟨hfob, f, hmem, hlt⟩
    have hfl : st.flagged.isEmpty = false := by
      cases hfe : st.flagged with
      | nil => rw [hfe] at hmem; simp at hmem
      | cons a l => rfl
    have hmem2 : f ∈ st.flagged.filter fun f =>
        decide (f.getTruthScoreD 100 < cfg.threshold) :=
      List.mem_filter.mpr ⟨hmem, decide_eq_true hlt⟩
    have hfe2 : (st.flagged.filter fun f =>
        decide (f.getTruthScoreD 100 < cfg.threshold)).isEmpty = false := by
      cases hfe : st.flagged.filter fun f =>
          decide (f.getTruthScoreD 100 < cfg.threshold) with
      | nil => rw [hfe] at hmem2; simp at hmem2
      | cons a l => rfl
    simp [failCondition, hfl, hfe2, hfob]

lemma flagged_getD_iff (cfg : ScanConfig) (analyze : AnalyzeFn)
    (files : List (String × ReadOutcome)) :
    (∃ f ∈ (scanFiles cfg analyze files).flagged,
        f.getTruthScoreD 100 < cfg.threshold) ↔
      (∃ f ∈ (scanFiles cfg analyze files).flagged,
        ∃ s : Int, f.truthScore? = some s ∧ s < cfg.threshold) := by
  constructor
  · rintro ⟨f, hmem, hlt⟩
    have hfl : isFlagged cfg.threshold f = true := by
      rw [scanFiles_flagged_filter] at hmem
      exact (List.mem_filter.mp hmem).2
    obtain ⟨s, hs, hds, _⟩ := isFlagged_scanned_shape hfl
    exact ⟨f, hmem, s, hs, by rw [← hds]; exact hlt⟩
  · rintro ⟨f, hmem, s, hs, hlt⟩
    refine ⟨f, hmem, ?_⟩
    cases f with
    | scanned f2 s2 b2 fc2 fl2 =>
        obtain rfl : s2 = s := by simpa [FileResult.truthScore?] using hs
        simpa [FileResult.getTruthScoreD] using hlt
    | failed f2 e2 => simp [FileResult.truthScore?] at hs

/-! ## Claim theorems -/

/-- Claim C3: for every successfully scanned file, it is added to the
flagged set if and only if `biasDetected` is true or its truth score is
strictly less than the configured threshold; the flagged list is exactly
the results list filtered by that condition. -/
theorem c3_flagged_characterization (cfg : ScanConfig) (analyze : AnalyzeFn)
    (files : List (String × ReadOutcome)) :
    (scanFiles cfg analyze files).flagged =
      (scanFiles cfg analyze files).results.filter (isFlagged cfg.threshold) ∧
    ∀ (f : String) (s : Int) (b : Bool) (fc : Nat) (fl : List Flag),
      FileResult.scanned f s b fc fl ∈ (scanFiles cfg analyze files).flagged ↔
        FileResult.scanned f s b fc fl ∈ (scanFiles cfg analyze files).results ∧
          (b = true ∨ s < cfg.threshold) := by
  refine ⟨scanFiles_flagged_filter cfg analyze files, ?_⟩
  intro f s b fc fl
  rw [scanFiles_flagged_filter, List.mem_filter]
  constructor
  · rintro ⟨hm, hf⟩
    exact ⟨hm, by simpa [isFlagged] using hf⟩
  · rintro ⟨hm, hf⟩
    exact ⟨hm, by simpa [isFlagged] using hf⟩

/-- Claim C4: the reported average is the arithmetic mean of the truth
scores over exactly the scanned results, rounded to one decimal place,
and is 100 when there are zero scanned results. -/
theorem c4_avg_score (cfg : ScanConfig) (analyze : AnalyzeFn)
    (files : List (String × ReadOutcome)) :
    avg_score (scanFiles cfg analyze files) =
      if ((scanFiles cfg analyze files).results.filterMap
          FileResult.truthScore?).isEmpty then 100
      else round1
        ((((scanFiles cfg analyze files).results.filterMap
            FileResult.truthScore?).sum : ℚ) /
          (((scanFiles cfg analyze files).results.filterMap
            FileResult.truthScore?).length : ℚ)) := by
  have hlen := scanned_length_eq_scores (scanFiles cfg analyze files).results
  have htot := scanFiles_total cfg analyze files
  have havg : avg_score (scanFiles cfg analyze files) =
      if ((scanFiles cfg analyze files).results.filter
          fun r => !r.isSkipped).isEmpty then (100 : ℚ)
      else round1 (((scanFiles cfg analyze files).total_score : ℚ) /
        ((max ((scanFiles cfg analyze files).results.filter
          fun r => !r.isSkipped).length 1 : ℕ) : ℚ)) := rfl
  rw [havg]
  by_cases he : ((scanFiles cfg analyze files).results.filter
      fun r => !r.isSkipped).isEmpty = true
  · have h0 : ((scanFiles cfg analyze files).results.filterMap
        FileResult.truthScore?).length = 0 := by
      rw [← hlen]
      exact (isEmpty_iff_len _).mp he
    rw [if_pos he, if_pos ((isEmpty_iff_len _).mpr h0)]
  · have hne : ((scanFiles cfg analyze files).results.filter
        fun r => !r.isSkipped).length ≠ 0 :=
      fun h0 => he ((isEmpty_iff_len _).mpr h0)
    have h1 : ¬ ((scanFiles cfg analyze files).results.filterMap
        FileResult.truthScore?).isEmpty = true := by
      intro hcon
      exact hne (by rw [hlen]; exact (isEmpty_iff_len _).mp hcon)
    rw [if_neg he, if_neg h1, htot,
      Nat.max_eq_left (Nat.one_le_iff_ne_zero.mpr hne), hlen]

/-- Claim C5: a matched file whose content is empty or whitespace-only is
skipped entirely: the loop state is unchanged (so it contributes no
result record and affects no count), the analyzer is never consulted,
only a skip notice is logged, and removing the file from the sequence
does not change the scan at all. -/
theorem c5_blank_file_excluded (cfg : ScanConfig) (a1 a2 : AnalyzeFn)
    (st : ScanState) (path t : String)
    (xs ys : List (String × ReadOutcome)) (h : isBlank t = true) :
    processFile cfg a1 st (path, .ok t) = st ∧
    fileOutcome cfg a1 (path, .ok t) = none ∧
    fileNotices cfg a1 (path, .ok t) = [Notice.skippedEmpty path] ∧
    processFile cfg a1 st (path, .ok t) = processFile cfg a2 st (path, .ok t) ∧
    scanFiles cfg a1 (xs ++ (path, .ok t) :: ys) = scanFiles cfg a1 (xs ++ ys) := by
  refine ⟨by simp [processFile, h], by simp [fileOutcome, h],
    by simp [fileNotices, h], by simp [processFile, h], ?_⟩
  unfold scanFiles
  rw [List.foldl_append, List.foldl_append, List.foldl_cons]
  congr 1
  simp [processFile, h]

/-- Claim C6: a run whose pattern matches zero files emits exactly the
trivial outputs `total_files=0, flagged_files=0, avg_score=100,
report=[]`, exits with status 0, and does nothing else (in particular the
analyzer and summary are skipped, whatever the analyzer is). -/
theorem c6_no_match_short_circuit (cfg : ScanConfig) (analyze : AnalyzeFn) :
    mainRun cfg analyze [] =
      { events := [
          Event.setOutput "total_files" (OutputValue.nat 0),
          Event.setOutput "flagged_files" (OutputValue.nat 0),
          Event.setOutput "avg_score" (OutputValue.rat 100),
          Event.setOutput "report" (OutputValue.report []),
          Event.exitProcess 0],
        exitCode := 0 } := rfl

/-- Claim C8: parsing the serialized report reconstructs, field for
field, the same ordered sequence of result records the run aggregated. -/
theorem c8_report_round_trip (cfg : ScanConfig) (analyze : AnalyzeFn)
    (files : List (String × ReadOutcome)) :
    decodeReport (encodeReport (scanFiles cfg analyze files).results) =
      some (scanFiles cfg analyze files).results :=
  decodeReport_encodeReport _

/-- Claim C1: per-file failure isolation.  When every matched file is
non-empty (readable with non-blank content, or failing to read), the
report has exactly one entry per file in discovery order; a file whose
read raises yields a failed record with the error message, a file whose
analyze call raises yields a failed record with the error message, and
all remaining files are still processed. -/
theorem c1_per_file_isolation (cfg : ScanConfig) (analyze : AnalyzeFn)
    (files : List (String × ReadOutcome))
    (h : ∀ p ∈ files, producesResult p = true) :
    (scanFiles cfg analyze files).results.length = files.length ∧
    (∀ i : Nat, ∀ hi : i < files.length,
      (scanFiles cfg analyze files).results.get? i =
        fileOutcome cfg analyze (files.get ⟨i, hi⟩)) ∧
    (∀ i : Nat, ∀ hi : i < files.length, ∀ e : String,
      (files.get ⟨i, hi⟩).2 = ReadOutcome.err e →
        (scanFiles cfg analyze files).results.get? i =
          some (FileResult.failed (files.get ⟨i, hi⟩).1 e)) ∧
    (∀ i : Nat, ∀ hi : i < files.length, ∀ t e : String,
      (files.get ⟨i, hi⟩).2 = ReadOutcome.ok t →
      analyze t cfg.domain = Except.error e →
        (scanFiles cfg analyze files).results.get? i =
          some (FileResult.failed (files.get ⟨i, hi⟩).1 e)) := by
  have hsome : ∀ p ∈ files, (fileOutcome cfg analyze p).isSome = true := by
    intro p hp
    have hpr := h p hp
    obtain ⟨path, r⟩ := p
    cases r with
    | err e => simp [fileOutcome]
    | ok t =>
        have hb : isBlank t = false := by
          simpa [producesResult] using hpr
        cases ha : analyze t cfg.domain <;> simp [fileOutcome, hb, ha]
  obtain ⟨hlen, hget⟩ := filterMap_all_some (fileOutcome cfg analyze) files hsome
  have hres := scanFiles_results cfg analyze files
  refine ⟨by rw [hres]; exact hlen, ?_, ?_, ?_⟩
  · intro i hi
    rw [hres]
    exact hget i hi
  · intro i hi e he
    rw [hres, hget i hi]
    rw [fileOutcome_err cfg analyze _ e he]
  · intro i hi t e ht ha
    have hmem : files.get ⟨i, hi⟩ ∈ files := files.get_mem _ _
    have hb : isBlank t = false := producesResult_ok _ t ht (h _ hmem)
    rw [hres, hget i hi]
    rw [fileOutcome_analyze_err cfg analyze _ t e ht hb ha]

/-- Claim C2: with the run reaching the decision step or not, the exit
status is failure (code 1) exactly when `fail_on_bias` is set and some
flagged file's truth score is strictly below the threshold; files flagged
only by detection with score at or above threshold never cause failure. -/
theorem c2_exit_status_iff (cfg : ScanConfig) (analyze : AnalyzeFn)
    (files : List (String × ReadOutcome)) :
    (mainRun cfg analyze files).exitCode = 1 ↔
      (cfg.fail_on_bias = true ∧
        ∃ f ∈ (scanFiles cfg analyze files).flagged,
          ∃ s : Int, f.truthScore? = some s ∧ s < cfg.threshold) := by
  by_cases hf : files.isEmpty = true
  · have hnil : files = [] := by
      cases files with
      | nil => rfl
      | cons p ps => simp at hf
    subst hnil
    constructor
    · intro h
      simp [mainRun] at h
    · rintro ⟨_, f, hmem, _⟩
      simp [scanFiles] at hmem
  · rw [← flagged_getD_iff cfg analyze files,
      ← failCondition_iff cfg (scanFiles cfg analyze files)]
    by_cases hc : failCondition cfg (scanFiles cfg analyze files) = true
    · have h1 : (mainRun cfg analyze files).exitCode = 1 := by
        unfold mainRun
        rw [if_neg hf, if_pos hc]
      rw [h1]
      simp [hc]
    · have h0 : (mainRun cfg analyze files).exitCode = 0 := by
        unfold mainRun
        rw [if_neg hf, if_neg hc]
      rw [h0]
      simp [hc]

/-- Claim C7 counterexample: a scanned file with `bias_detected = true`,
score 95 and threshold 70 gets the red (flagged) tier on its progress
line even though its score is at least 90, and flipping only
`bias_detected` changes the tier — the tier is not determined by the
score alone and is not the clean tier for scores at or above 90. -/
theorem c7_tier_counterexample :
    fileNotices ⟨70, "general", true⟩
        (fun _ _ => Except.ok ⟨some 95, some [], some true⟩)
        ("doc.md", ReadOutcome.ok "text") =
      [Notice.warnAnnot "doc.md" 95 0 "",
       Notice.statusLine Tier.flaggedTier "doc.md" 95 0] ∧
    statusTier 70 true 95 = Tier.flaggedTier ∧
    statusTier 70 true 95 ≠ Tier.cleanTier ∧
    specTier 70 95 = Tier.cleanTier ∧
    statusTier 70 true 95 ≠ statusTier 70 false 95 := by
  refine ⟨by decide, by decide, by decide, by decide, by decide⟩

/-- Claim C7 (amended): the progress-line tier of a successfully scanned
file is the red (flagged) tier exactly when `bias_detected` is true or
the score is below the threshold, the yellow (warn) tier exactly when it
is not red and the score is below 90, and the green (clean) tier
otherwise; the notice stream of such a file ends with that status
line. -/
theorem c7_tier_amended (cfg : ScanConfig) (analyze : AnalyzeFn)
    (path t : String) (v : Verdict) (hb : isBlank t = false)
    (ha : analyze t cfg.domain = Except.ok v) :
    (∃ l, fileNotices cfg analyze (path, .ok t) =
        l ++ [Notice.statusLine
          (statusTier cfg.threshold (v.bias_detected.getD false)
            (v.truth_score.getD 100))
          path (v.truth_score.getD 100) (v.flags.getD []).length]) ∧
    (∀ b : Bool, ∀ s : Int,
      (statusTier cfg.threshold b s = Tier.flaggedTier ↔
        (b = true ∨ s < cfg.threshold)) ∧
      (statusTier cfg.threshold b s = Tier.warnTier ↔
        (b = false ∧ cfg.threshold ≤ s ∧ s < 90)) ∧
      (statusTier cfg.threshold b s = Tier.cleanTier ↔
        (b = false ∧ cfg.threshold ≤ s ∧ 90 ≤ s))) := by
  constructor
  · by_cases h1 : (v.bias_detected.getD false ||
        decide (v.truth_score.getD 100 < cfg.threshold)) = true
    · refine ⟨[Notice.warnAnnot path (v.truth_score.getD 100)
        (v.flags.getD []).length (topFlagNames (v.flags.getD []))], ?_⟩
      simp [fileNotices, hb, ha, h1, statusTier]
    · by_cases h2 : decide (v.truth_score.getD 100 < 90) = true
      · exact ⟨[], by simp [fileNotices, hb, ha, h1, h2, statusTier]⟩
      · exact ⟨[], by simp [fileNotices, hb, ha, h1, h2, statusTier]⟩
  · intro b s
    refine ⟨?_, ?_, ?_⟩ <;>
      · simp only [statusTier]
        cases b <;> split_ifs <;> simp_all

/-- Claim C9: every run that exits with failure has already emitted all
four structured outputs and the markdown summary: its trace is a prefix
containing all of them and no exit event, followed by the exit-1
event. -/
theorem c9_report_before_exit (cfg : ScanConfig) (analyze : AnalyzeFn)
    (files : List (String × ReadOutcome))
    (h : (mainRun cfg analyze files).exitCode = 1) :
    ∃ pre, (mainRun cfg analyze files).events = pre ++ [Event.exitProcess 1] ∧
      (∃ v, Event.setOutput "total_files" v ∈ pre) ∧
      (∃ v, Event.setOutput "flagged_files" v ∈ pre) ∧
      (∃ v, Event.setOutput "avg_score" v ∈ pre) ∧
      (∃ v, Event.setOutput "report" v ∈ pre) ∧
      (∃ s, Event.writeSummary s ∈ pre) ∧
      ∀ e ∈ pre, ∀ c : Nat, e ≠ Event.exitProcess c := by
  by_cases hf : files.isEmpty = true
  · exfalso
    unfold mainRun at h
    rw [if_pos hf] at h
    simp at h
  · by_cases hc : failCondition cfg (scanFiles cfg analyze files) = true
    · refine ⟨mainEvents cfg analyze files, ?_, ?_, ?_, ?_, ?_, ?_, ?_⟩
      · unfold mainRun
        rw [if_neg hf, if_pos hc]
      · exact ⟨_, by unfold mainEvents; exact List.mem_cons_self _ _⟩
      · exact ⟨OutputValue.nat (scanFiles cfg analyze files).flagged.length,
          by unfold mainEvents; simp⟩
      · exact ⟨OutputValue.rat (avg_score (scanFiles cfg analyze files)),
          by unfold mainEvents; simp⟩
      · exact ⟨OutputValue.report (scanFiles cfg analyze files).results,
          by unfold mainEvents; simp⟩
      · exact ⟨buildSummary
          ((scanFiles cfg analyze files).results.filter fun r => !r.isSkipped)
          (scanFiles cfg analyze files).flagged
          (avg_score (scanFiles cfg analyze files)) cfg.threshold cfg.domain,
          by unfold mainEvents; simp⟩
      · intro e he c
        unfold mainEvents at he
        simp only [List.mem_cons, List.not_mem_nil, or_false] at he
        rcases he with rfl | rfl | rfl | rfl | rfl <;> simp
    · exfalso
      unfold mainRun at h
      rw [if_neg hf, if_neg hc] at h
      simp at h

/-- Claim C10: at every point of the run — after scanning any prefix of
the file list — every record in the flagged list is a scanned record
(never a failed one), carries a truth score, and also appears in the
results list; hence the flagged count never exceeds the scanned count
and every row of the flagged summary table has a truth score. -/
theorem c10_flagged_invariant (cfg : ScanConfig) (analyze : AnalyzeFn)
    (files pre rest : List (String × ReadOutcome)) (h : files = pre ++ rest) :
    (∀ f ∈ (scanFiles cfg analyze pre).flagged,
      f.isSkipped = false ∧ f.truthScore?.isSome = true ∧
        f ∈ (scanFiles cfg analyze pre).results) ∧
    (scanFiles cfg analyze pre).flagged.length ≤
      ((scanFiles cfg analyze pre).results.filter fun r => !r.isSkipped).length ∧
    (∀ row ∈ (buildSummary
        ((scanFiles cfg analyze pre).results.filter fun r => !r.isSkipped)
        (scanFiles cfg analyze pre).flagged
        (avg_score (scanFiles cfg analyze pre))
        cfg.threshold cfg.domain).flaggedRows,
      row.2.1.isSome = true) := by
  have hmemb : ∀ f ∈ (scanFiles cfg analyze pre).flagged,
      f.isSkipped = false ∧ f.truthScore?.isSome = true ∧
        f ∈ (scanFiles cfg analyze pre).results := by
    intro f hmem
    rw [scanFiles_flagged_filter] at hmem
    obtain ⟨hres, hfl⟩ := List.mem_filter.mp hmem
    obtain ⟨s, hs, _, hsk⟩ := isFlagged_scanned_shape hfl
    exact ⟨hsk, by rw [hs]; rfl, hres⟩
  refine ⟨hmemb, ?_, ?_⟩
  · rw [scanFiles_flagged_filter]
    exact flagged_length_le_scanned cfg.threshold (scanFiles cfg analyze pre).results
  · intro row hrow
    simp only [buildSummary, List.mem_map] at hrow
    obtain ⟨f, hmem, rfl⟩ := hrow
    simpa using (hmemb f hmem).2.1

/-! ## Concrete runs used by the witnesses -/

/-- A concrete configuration: threshold 70, domain `general`,
fail-on-bias enabled. -/
def cfgW : ScanConfig := ⟨70, "general", true⟩

/-- A concrete analyzer: raises on the text `boom`, reports biased score
50 on the text `low`, and otherwise returns a clean score 80. -/
def analyzeW : AnalyzeFn := fun t _ =>
  if t == "boom" then Except.error "kaput"
  else if t == "low" then Except.ok ⟨some 50, some [], some true⟩
  else Except.ok ⟨some 80, some [], some false⟩

/-- Three matched non-empty files whose second analyze call raises. -/
def filesW : List (String × ReadOutcome) :=
  [("a.md", .ok "fine"), ("b.md", .ok "boom"), ("c.md", .ok "good")]

/-- One matched file that is flagged below threshold. -/
def filesFail : List (String × ReadOutcome) := [("bad.md", .ok "low")]

/-- The biased high-score verdict of the tier counterexample. -/
def verdictW : Verdict := ⟨some 95, some [], some true⟩

/-- An analyzer constantly returning `verdictW`. -/
def analyzeBias : AnalyzeFn := fun _ _ => Except.ok verdictW

/-- Witness for C1: three non-empty files where the second analyze call
raises give exactly three report entries in order, the second of them
the failed record with the raised message. -/
theorem c1_per_file_isolation_witness :
    (∀ p ∈ filesW, producesResult p = true) ∧
    (scanFiles cfgW analyzeW filesW).results.length = filesW.length ∧
    (scanFiles cfgW analyzeW filesW).results.get? 1 =
      some (FileResult.failed "b.md" "kaput") := by
  have h : ∀ p ∈ filesW, producesResult p = true := by decide
  have hthm := c1_per_file_isolation cfgW analyzeW filesW h
  refine ⟨h, hthm.1, ?_⟩
  exact hthm.2.2.2 1 (by decide) "boom" "kaput" rfl rfl

/-- Witness for C5: a whitespace-only file is skipped with only a skip
notice, leaves the loop state unchanged, and can be removed from the run
without changing it. -/
theorem c5_blank_file_excluded_witness :
    isBlank " \n " = true ∧
    processFile cfgW analyzeW ⟨[], [], 0⟩ ("e.md", .ok " \n ") = ⟨[], [], 0⟩ ∧
    fileNotices cfgW analyzeW ("e.md", .ok " \n ") =
      [Notice.skippedEmpty "e.md"] ∧
    scanFiles cfgW analyzeW [("e.md", .ok " \n ")] = scanFiles cfgW analyzeW [] := by
  have h : isBlank " \n " = true := by decide
  have hthm := c5_blank_file_excluded cfgW analyzeW analyzeW ⟨[], [], 0⟩
    "e.md" " \n " [] [] h
  exact ⟨h, hthm.1, hthm.2.2.1, by simpa using hthm.2.2.2.2⟩

/-- Witness for the amended C7 at a non-blank file whose verdict is
biased with score 95 under threshold 70. -/
theorem c7_tier_amended_witness :
    (∃ l, fileNotices cfgW analyzeBias ("doc.md", .ok "text") =
        l ++ [Notice.statusLine
          (statusTier cfgW.threshold (verdictW.bias_detected.getD false)
            (verdictW.truth_score.getD 100))
          "doc.md" (verdictW.truth_score.getD 100)
          (verdictW.flags.getD []).length]) ∧
    (∀ b : Bool, ∀ s : Int,
      (statusTier cfgW.threshold b s = Tier.flaggedTier ↔
        (b = true ∨ s < cfgW.threshold)) ∧
      (statusTier cfgW.threshold b s = Tier.warnTier ↔
        (b = false ∧ cfgW.threshold ≤ s ∧ s < 90)) ∧
      (statusTier cfgW.threshold b s = Tier.cleanTier ↔
        (b = false ∧ cfgW.threshold ≤ s ∧ 90 ≤ s))) :=
  c7_tier_amended cfgW analyzeBias "doc.md" "text" verdictW (by decide) rfl

/-- Witness for C9: a failing run (one biased file scoring 50 under
threshold 70 with fail-on-bias set) emits all outputs and the summary
strictly before its exit-1 event. -/
theorem c9_report_before_exit_witness :
    (mainRun cfgW analyzeW filesFail).exitCode = 1 ∧
    ∃ pre, (mainRun cfgW analyzeW filesFail).events =
        pre ++ [Event.exitProcess 1] ∧
      (∃ v, Event.setOutput "total_files" v ∈ pre) ∧
      (∃ v, Event.setOutput "flagged_files" v ∈ pre) ∧
      (∃ v, Event.setOutput "avg_score" v ∈ pre) ∧
      (∃ v, Event.setOutput "report" v ∈ pre) ∧
      (∃ s, Event.writeSummary s ∈ pre) ∧
      ∀ e ∈ pre, ∀ c : Nat, e ≠ Event.exitProcess c := by
  have h : (mainRun cfgW analyzeW filesFail).exitCode = 1 := by decide
  exact ⟨h, c9_report_before_exit cfgW analyzeW filesFail h⟩

/-- Witness for C10 after the one-file prefix of the three-file run. -/
theorem c10_flagged_invariant_witness :
    filesW = [("a.md", ReadOutcome.ok "fine")] ++
      [("b.md", ReadOutcome.ok "boom"), ("c.md", ReadOutcome.ok "good")] ∧
    ((∀ f ∈ (scanFiles cfgW analyzeW [("a.md", ReadOutcome.ok "fine")]).flagged,
      f.isSkipped = false ∧ f.truthScore?.isSome = true ∧
        f ∈ (scanFiles cfgW analyzeW [("a.md", ReadOutcome.ok "fine")]).results) ∧
    (scanFiles cfgW analyzeW [("a.md", ReadOutcome.ok "fine")]).flagged.length ≤
      ((scanFiles cfgW analyzeW [("a.md", ReadOutcome.ok "fine")]).results.filter
        fun r => !r.isSkipped).length ∧
    (∀ row ∈ (buildSummary
        ((scanFiles cfgW analyzeW [("a.md", ReadOutcome.ok "fine")]).results.filter
          fun r => !r.isSkipped)
        (scanFiles cfgW analyzeW [("a.md", ReadOutcome.ok "fine")]).flagged
        (avg_score (scanFiles cfgW analyzeW [("a.md", ReadOutcome.ok "fine")]))
        cfgW.threshold cfgW.domain).flaggedRows,
      row.2.1.isSome = true)) :=
  ⟨rfl, c10_flagged_invariant cfgW analyzeW filesW
    [("a.md", ReadOutcome.ok "fine")]
    [("b.md", ReadOutcome.ok "boom"), ("c.md", ReadOutcome.ok "good")] rfl⟩

end BiasClear
